import Mathlib

/-!
Shallow embedding of the three Unmanic plugins
(`encoder_audio_ac3`, `extract_ass_subtitles_to_files`,
`reorder_audio_streams_by_language`) together with proofs checking the
natural-language specification against the code.

Python strings are modelled as Lean `String` (a wrapper around `List Char`),
Python `None`-able values as `Option`, Python dicts of stream tags as
association lists, and a Python expression that raises is modelled by an
explicit error value (`Option`/`PyOutcome`).
-/

/-! ## Python string primitives -/

/-- Charwise lowercasing, modelling Python `str.lower()` on ASCII data. -/
def pyLower (s : String) : String :=
  String.mk (s.data.map Char.toLower)

/-- Python `\s` / `str.isspace` character class (ASCII range). -/
def pyIsSpaceChar (c : Char) : Bool :=
  c == ' ' || c == '\t' || c == '\n' || c == '\r' || c == '\x0b' || c == '\x0c'

/-- Does `needle` occur at the start of `hay`? -/
def startsWithL : List Char → List Char → Bool
  | [], _ => true
  | _ :: _, [] => false
  | a :: as, b :: bs => a == b && startsWithL as bs

/-- Does `needle` occur contiguously anywhere in `hay`? -/
def substrL (needle : List Char) : List Char → Bool
  | [] => needle.isEmpty
  | b :: t => startsWithL needle (b :: t) || substrL needle t

/-- Python's containment test `needle in hay` on strings. -/
def pyIn (needle hay : String) : Bool :=
  substrL needle.data hay.data

/-- Python `str.split(sep)` on character lists (single-character separator,
splitting on every occurrence and keeping empty pieces). -/
def splitChar (sep : Char) : List Char → List (List Char)
  | [] => [[]]
  | x :: xs =>
    match splitChar sep xs with
    | [] => [[]]
    | g :: gs => if x = sep then [] :: g :: gs else (x :: g) :: gs

/-- Python `str.split(sep)` on strings. -/
def pySplit (sep : Char) (s : String) : List String :=
  (splitChar sep s.data).map String.mk

/-- Python `str.strip()`. -/
def pyStrip (s : String) : String :=
  String.mk (((s.data.dropWhile (fun c => pyIsSpaceChar c)).reverse.dropWhile
    (fun c => pyIsSpaceChar c)).reverse)

/-- Decimal digit characters. -/
def digitList : List Char :=
  ['0', '1', '2', '3', '4', '5', '6', '7', '8', '9']

/-- The character for one decimal digit (arguments `≥ 9` all render as `'9'`;
only `0`–`9` is ever reached from `natDigits`). -/
def digitChar : Nat → Char
  | 0 => '0'
  | 1 => '1'
  | 2 => '2'
  | 3 => '3'
  | 4 => '4'
  | 5 => '5'
  | 6 => '6'
  | 7 => '7'
  | 8 => '8'
  | _ => '9'

/-- Worker for `natDigits`: peels decimal digits least-significant first into
the accumulator.  The fuel argument only bounds the recursion depth; any fuel
of at least the digit count gives the digits of `n`. -/
def natDigitsCore : Nat → Nat → List Char → List Char
  | 0, _, acc => acc
  | fuel + 1, n, acc =>
    if n < 10 then digitChar n :: acc
    else natDigitsCore fuel (n / 10) (digitChar (n % 10) :: acc)

/-- Decimal digits of a natural number, most significant first,
modelling Python `str(n)` / `"{}".format(n)` for a non-negative int. -/
def natDigits (n : Nat) : List Char :=
  natDigitsCore (n + 1) n []

/-- Decimal rendering of a natural number as a string. -/
def natString (n : Nat) : String :=
  String.mk (natDigits n)

/-- Numeric value of a decimal digit character. -/
def digVal (c : Char) : Nat :=
  c.toNat - 48

/-- Value of a list of decimal digit characters, modelling Python `int(s)`
on the all-digit strings produced by the plugins. -/
def parseDigits (l : List Char) : Nat :=
  l.foldl (fun acc c => acc * 10 + digVal c) 0

/-- Python `int(s)` on the decimal tokens appearing in the mapping lists. -/
def pyIntStr (s : String) : Nat :=
  parseDigits s.data

/-! ## Stream model (one entry of the ffprobe `streams` list) -/

/-- One stream record of the probe document.  `codec_name` is `""` when the
probe omitted it (both plugins read it with a falsy default or on streams
where it is present), `channels`/`tags` are `none` when absent. -/
structure FFStream where
  codec_type : String
  codec_name : String
  channels : Option Nat
  tags : Option (List (String × String))
deriving DecidableEq

/-- Python `dict.get(k)` on a tag mapping. -/
def tagsGet (ts : List (String × String)) (k : String) : Option String :=
  (ts.find? (fun p => p.1 == k)).map (fun p => p.2)

/-! ## encoder_audio_ac3: codec conversion -/

/-- `PluginStreamMapper.test_stream_needs_processing` of `encoder_audio_ac3`:
ignore streams already of the required codec name (`self.codec = 'ac3'`);
everything else needs processing.  The configured `codec_selection_mode`
and `selected_codecs` settings are never consulted here. -/
def test_stream_needs_processing_ac3 (stream_info : FFStream) : Bool :=
  if [("ac3" : String)].contains (pyLower stream_info.codec_name) then false
  else true

/-- The spec's claimed test for the codec-conversion classifier (§4.1 Variant
A, written from the spec's words, to be compared with the source): needs
processing iff codec differs from `ac3` and, in `selected` mode, the codec is
in the allow-list (case-insensitive), with an `other` sentinel matching any
codec not otherwise enumerated. -/
def claimC2Test (codec_selection_mode : String) (selected_codecs : List String)
    (stream_info : FFStream) : Bool :=
  let codec := pyLower stream_info.codec_name
  !(codec == "ac3") &&
    (!(codec_selection_mode == "selected")
      || (selected_codecs.map pyLower).contains codec
      || (selected_codecs.contains "other" && !(ac3EnumeratedCodecs.contains codec)))
where
  /-- The codecs enumerated by the plugin's `selected_codecs` checkbox set. -/
  ac3EnumeratedCodecs : List String :=
    ["dts", "dca", "truehd", "eac3", "mp3", "mp2", "aac", "opus", "flac",
     "vorbis", "pcm_s16le"]

/-- `PluginStreamMapper.calculate_bitrate`: channel-count based AC3 bitrate.
A falsy channel count (absent, or `0`) takes the max-bitrate default branch. -/
def calculate_bitrate (stream_info : FFStream) : String :=
  match stream_info.channels with
  | none => "640"
  | some ch =>
    if ch = 0 then "640"
    else
      let channels := if 6 < ch then 6 else ch
      if channels ≤ 2 then "224"
      else if channels ≤ 4 then "448"
      else if channels ≤ 6 then "640"
      else "640"

/-- `PluginStreamMapper.custom_stream_mapping` of `encoder_audio_ac3`:
returns `(stream_mapping, stream_encoding)`. -/
def enc_custom_stream_mapping (advanced : Bool) (custom_options : List String)
    (stream_info : FFStream) (stream_id : Nat) : List String × List String :=
  let stream_encoding := ["-c:a:" ++ natString stream_id, "ac3"]
  let stream_encoding :=
    if advanced then stream_encoding ++ custom_options
    else
      match stream_info.channels with
      | none => stream_encoding
      | some ch =>
        if ch = 0 then stream_encoding
        else
          let calculated_bitrate := calculate_bitrate stream_info
          let channels := if 6 < ch then 6 else ch
          stream_encoding ++
            ["-ac:a:" ++ natString stream_id, natString channels,
             "-b:a:" ++ natString stream_id, calculated_bitrate ++ "k"]
  (["-map", "0:a:" ++ natString stream_id], stream_encoding)

/-- An audio stream with the given channel count, for concrete tests. -/
def mkAudio (channels : Option Nat) : FFStream :=
  { codec_type := "audio", codec_name := "dts", channels := channels, tags := none }

/-! ## extract_ass_subtitles_to_files: subtitle extraction -/

/-- Replace every whitespace character by `-`, modelling
`re.sub('\s', '-', s)`. -/
def reSubWsDash (s : String) : String :=
  String.mk (s.data.map (fun c => if pyIsSpaceChar c then '-' else c))

/-- `PluginStreamMapper._get_language_list`: whitespace to hyphens, lowercase,
split on commas, drop falsy (empty) pieces, strip each piece. -/
def get_language_list (languages_to_extract : String) : List String :=
  let language_list := reSubWsDash languages_to_extract
  let languages := (pySplit ',' (pyLower language_list)).filter (fun x => x != "")
  languages.map pyStrip

/-- `PluginStreamMapper.test_stream_needs_processing` of
`extract_ass_subtitles_to_files`.  `none` models the `AttributeError` raised
at `stream_info.get('tags').get('language', '')` when the stream carries no
`tags` mapping (`dict.get` without default returns `None`). -/
def ext_test_stream_needs_processing (languages_to_extract : String)
    (stream_info : FFStream) : Option Bool :=
  if ¬ (pyLower stream_info.codec_name = "ass" ∨ pyLower stream_info.codec_name = "ssa") then
    some false
  else
    let languages := get_language_list languages_to_extract
    if languages.length = 0 then some true
    else
      match stream_info.tags with
      | none => none
      | some ts =>
        let language_tag := pyLower ((tagsGet ts "language").getD "")
        some (languages.contains language_tag)

/-- `get_ffmpeg_args` override of `extract_ass_subtitles_to_files`'s mapper:
the relevant mapper attributes (option buckets and the optional input file
set by `set_input_file`). -/
structure ExtractMapperState where
  generic_options : List String
  main_options : List String
  advanced_options : List String
  input_file : Option String
deriving DecidableEq

/-- `PluginStreamMapper.get_ffmpeg_args`: raises (`Except.error`) iff the
input file was never set, otherwise assembles the argument list. -/
def ext_get_ffmpeg_args (m : ExtractMapperState) : Except String (List String) :=
  let args := m.generic_options
  match m.input_file with
  | none => Except.error "Input file has not been set"
  | some input_file =>
    Except.ok (args ++ ["-i", input_file] ++ m.main_options ++ m.advanced_options)

/-- Result of running a fragment of Python code: a value, or a raised
exception identified by its class name. -/
inductive PyOutcome (α : Type) : Type
  | ok (val : α)
  | exc (excName : String)
deriving DecidableEq

/-- Names bound in the `extract_ass_subtitles_to_files` plugin module
(imports and module-level definitions) plus the builtins the sidecar reader
refers to.  `NoSectionError` and `NoOptionError` are referenced by the
`except` clauses of `ass_already_extracted` but never imported, so they are
absent here. -/
def extractPluginModuleNames : List String :=
  ["logging", "os", "re", "PluginSettings", "UnmanicDirectoryInfo",
   "StreamMapper", "Probe", "Parser", "logger", "Settings",
   "PluginStreamMapper", "ass_already_extracted",
   "on_library_management_file_test", "on_worker_process",
   "on_postprocessor_task_results", "Exception"]

/-- `ass_already_extracted`, as a function of the sidecar read outcome
(`directory_info.get(...)`).  On the happy path the marker string is tested
for truthiness.  When the read raises, CPython first resolves the class name
of the first `except` clause; `NoSectionError` is not bound in the module
(the `configparser` import is missing), so that resolution itself raises
`NameError` and no later handler of the same `try` is consulted. -/
def ass_already_extracted (read_result : PyOutcome String) : PyOutcome Bool :=
  match read_result with
  | .ok already_extracted => .ok (already_extracted != "")
  | .exc _ =>
    if extractPluginModuleNames.contains "NoSectionError" then .ok false
    else .exc "NameError"

/-- The classification decision of `on_library_management_file_test`:
`add_file_to_pending_tasks` is set iff the file was not already extracted. -/
def extract_file_marks_pending (read_result : PyOutcome String) : PyOutcome Bool :=
  match ass_already_extracted read_result with
  | .ok b => .ok (!b)
  | .exc e => .exc e

/-! ## reorder_audio_streams_by_language: language resolver -/

/-- The reorder plugin's settings relevant to `set_langcode`. -/
structure ReorderPluginSettings where
  use_radarr : Bool
  use_sonarr : Bool
  search_string : String
  radarr_url : String
  radarr_api_key : String
  sonarr_url : String
  sonarr_api_key : String

/-- One element of a Radarr/Sonarr lookup response: the `name` field of its
`originalLanguage` entry, when that entry is present and truthy. -/
structure LookupRecord where
  originalLanguage : Option String

/-- Python truthiness of the `original_langcode` variable (either the
initial `''`, an API result string, or `None`). -/
def pyFalsy : Option String → Bool
  | none => true
  | some s => s == ""

/-- Python `v or dflt` on an optional string. -/
def pyOrDefault (v : Option String) (dflt : String) : String :=
  match v with
  | none => dflt
  | some s => if s == "" then dflt else s

/-- `PluginStreamMapper.get_language_from_radarr`, as a function of the
configured credentials, the external lookup response and the language-name
table (`pycountry.languages.get(name=...)` composed with `.alpha_3`). -/
def get_language_from_radarr (cfg : ReorderPluginSettings)
    (movie_data : List LookupRecord) (alpha3OfName : String → Option String) :
    Option String :=
  if cfg.radarr_url = "" ∨ cfg.radarr_api_key = "" then none
  else
    match movie_data with
    | [] => none
    | entry :: _ =>
      match entry.originalLanguage with
      | none => none
      | some lang_name =>
        match alpha3OfName lang_name with
        | none => none
        | some code => some code

/-- `PluginStreamMapper.get_language_from_sonarr` (same shape as the Radarr
lookup, over the Sonarr credentials and series response). -/
def get_language_from_sonarr (cfg : ReorderPluginSettings)
    (series_data : List LookupRecord) (alpha3OfName : String → Option String) :
    Option String :=
  if cfg.sonarr_url = "" ∨ cfg.sonarr_api_key = "" then none
  else
    match series_data with
    | [] => none
    | entry :: _ =>
      match entry.originalLanguage with
      | none => none
      | some lang_name =>
        match alpha3OfName lang_name with
        | none => none
        | some code => some code

/-- `PluginStreamMapper.set_langcode`: the resolved search string.  Radarr is
tried when enabled, Sonarr when enabled and the Radarr result is falsy, and
the configured `"Search String"` is the final fallback. -/
def set_langcode (cfg : ReorderPluginSettings) (movie_data series_data : List LookupRecord)
    (alpha3OfName : String → Option String) : String :=
  let original_langcode : Option String := some ""
  let original_langcode :=
    if cfg.use_radarr then get_language_from_radarr cfg movie_data alpha3OfName
    else original_langcode
  let original_langcode :=
    if cfg.use_sonarr && pyFalsy original_langcode then
      get_language_from_sonarr cfg series_data alpha3OfName
    else original_langcode
  pyOrDefault original_langcode cfg.search_string

/-! ## Theorems: encoder_audio_ac3 (claims C2, C5) -/

/-- A non-AC3 stream outside the configured allow-list, in `selected` mode. -/
def aacStream : FFStream :=
  { codec_type := "audio", codec_name := "aac", channels := some 6, tags := none }

/-- A stream already coded AC3. -/
def ac3Stream : FFStream :=
  { codec_type := "audio", codec_name := "ac3", channels := some 6, tags := none }

/-- C2: at codec_selection_mode `"selected"` with allow-list `["dts"]`, the
spec's classifier would leave an `aac` stream alone, but the plugin's
`test_stream_needs_processing` ignores the selection settings entirely and
marks it for processing; only the AC3-passthrough half of the claim holds. -/
theorem c2_selection_mode_ignored :
    claimC2Test "selected" ["dts"] aacStream = false ∧
    test_stream_needs_processing_ac3 aacStream = true ∧
    test_stream_needs_processing_ac3 ac3Stream = false := by
  decide

/-- C5: the bitrate selector returns 224 for 1-2 channels, 448 for 3-4,
640 for 5-6, 640 when the channel count is absent, and 640 for more than 6
channels, in which case the `-ac` token of the encoding fragment is clamped
to `6`. -/
theorem c5_bitrate_selector (ch sid : Nat) :
    calculate_bitrate (mkAudio none) = "640"
    ∧ ((ch = 1 ∨ ch = 2) → calculate_bitrate (mkAudio (some ch)) = "224")
    ∧ ((ch = 3 ∨ ch = 4) → calculate_bitrate (mkAudio (some ch)) = "448")
    ∧ ((ch = 5 ∨ ch = 6) → calculate_bitrate (mkAudio (some ch)) = "640")
    ∧ (6 < ch → calculate_bitrate (mkAudio (some ch)) = "640"
        ∧ (enc_custom_stream_mapping false [] (mkAudio (some ch)) sid).2
          = ["-c:a:" ++ natString sid, "ac3", "-ac:a:" ++ natString sid, "6",
             "-b:a:" ++ natString sid, "640k"]) := by
  refine ⟨rfl, ?_, ?_, ?_, ?_⟩
  · rintro (rfl | rfl) <;> rfl
  · rintro (rfl | rfl) <;> rfl
  · rintro (rfl | rfl) <;> rfl
  · intro h
    have h0 : ¬ (ch = 0) := by omega
    have hbit : calculate_bitrate (mkAudio (some ch)) = "640" := by
      simp [calculate_bitrate, mkAudio, h0, h]
    refine ⟨hbit, ?_⟩
    have hbit2 : calculate_bitrate
        { codec_type := "audio", codec_name := "dts", channels := some ch, tags := none }
        = "640" := hbit
    simp [enc_custom_stream_mapping, mkAudio, h0, h, hbit2,
      show natString 6 = "6" by decide, show ("640" ++ "k" : String) = "640k" by decide]

/-- Witness for `c5_bitrate_selector` at concrete channel counts. -/
theorem c5_bitrate_selector_witness :
    calculate_bitrate (mkAudio (some 2)) = "224"
    ∧ calculate_bitrate (mkAudio (some 4)) = "448"
    ∧ calculate_bitrate (mkAudio (some 6)) = "640"
    ∧ calculate_bitrate (mkAudio (some 8)) = "640"
    ∧ (enc_custom_stream_mapping false [] (mkAudio (some 8)) 1).2
      = ["-c:a:" ++ natString 1, "ac3", "-ac:a:" ++ natString 1, "6",
         "-b:a:" ++ natString 1, "640k"] :=
  ⟨(c5_bitrate_selector 2 0).2.1 (Or.inr rfl),
   (c5_bitrate_selector 4 0).2.2.1 (Or.inr rfl),
   (c5_bitrate_selector 6 0).2.2.2.1 (Or.inr rfl),
   ((c5_bitrate_selector 8 1).2.2.2.2 (by omega)).1,
   ((c5_bitrate_selector 8 1).2.2.2.2 (by omega)).2⟩

/-! ## Theorems: extract_ass_subtitles_to_files (claims C3, C6, C7, C8, C10) -/

/-- C3 counterexample: the claim says `"eng, fre ,,JPN"` parses to the filter
set `{eng, fre, jpn}`, but the code replaces whitespace with hyphens before
splitting, so the middle token comes out as `"-fre-"`, not `"fre"`. -/
theorem c3_language_filter_counterexample :
    "fre" ∉ get_language_list "eng, fre ,,JPN" ∧
    "-fre-" ∈ get_language_list "eng, fre ,,JPN" := by
  decide

/-- C3 (amended): the filter list is obtained by rewriting every whitespace
character to a hyphen, lowercasing, splitting on commas and dropping empty
pieces, so the surrounding spaces of a token survive as hyphens:
`"eng, fre ,,JPN"` yields exactly `["eng", "-fre-", "jpn"]`. -/
theorem c3_language_filter_parsing :
    get_language_list "eng, fre ,,JPN" = ["eng", "-fre-", "jpn"]
    ∧ get_language_list "" = []
    ∧ get_language_list ",," = []
    ∧ get_language_list "EnG" = ["eng"] := by
  decide

/-- An `ass` subtitle stream that carries no tags mapping at all. -/
def assNoTagsStream : FFStream :=
  { codec_type := "subtitle", codec_name := "ass", channels := none, tags := none }

/-- C6: with a non-empty language filter, the needs-processing test on an
`ass` stream without a tags mapping does not evaluate to a boolean at all:
`stream_info.get('tags')` is `None` and the chained `.get('language', '')`
raises `AttributeError` (modelled as `none`), contradicting the spec's
"missing metadata is never fatal". -/
theorem c6_missing_tags_raises :
    ext_test_stream_needs_processing "eng" assNoTagsStream = none ∧
    get_language_list "eng" ≠ [] := by
  decide

/-- C7: a non-empty prior-run marker for the file makes
`ass_already_extracted` return `True`, so the file-test runner does not mark
the file for processing; the classification is a pure function of the marker,
so this holds on every re-run. -/
theorem c7_marker_blocks_reprocessing (marker : String) (h : marker ≠ "") :
    ass_already_extracted (PyOutcome.ok marker) = PyOutcome.ok true ∧
    extract_file_marks_pending (PyOutcome.ok marker) = PyOutcome.ok false := by
  have hb : (marker != "") = true := by simpa [bne_iff_ne] using h
  constructor
  · simp [ass_already_extracted, hb]
  · simp [extract_file_marks_pending, ass_already_extracted, hb]

/-- Witness for `c7_marker_blocks_reprocessing` at a concrete marker. -/
theorem c7_marker_blocks_reprocessing_witness :
    ("eng fre" : String) ≠ "" ∧
    (ass_already_extracted (PyOutcome.ok "eng fre") = PyOutcome.ok true ∧
      extract_file_marks_pending (PyOutcome.ok "eng fre") = PyOutcome.ok false) :=
  ⟨by decide, c7_marker_blocks_reprocessing "eng fre" (by decide)⟩

/-- C8: when the sidecar read raises, `ass_already_extracted` does not return
the safe default `False`: the first `except` clause names `NoSectionError`,
which is never imported, so resolving the handler class itself raises
`NameError` and the error propagates to the caller, whatever the original
exception was. -/
theorem c8_sidecar_error_propagates (excName : String) :
    ass_already_extracted (PyOutcome.exc excName) = PyOutcome.exc "NameError" := by
  rfl

/-- C10: final argument assembly raises exactly when the input file was never
set; with the input file set it returns the assembled argument list. -/
theorem c10_input_file_precondition (m : ExtractMapperState) :
    ((∃ e, ext_get_ffmpeg_args m = Except.error e) ↔ m.input_file = none) ∧
    (∀ f, m.input_file = some f →
      ext_get_ffmpeg_args m
        = Except.ok (m.generic_options ++ ["-i", f] ++ m.main_options ++ m.advanced_options)) := by
  constructor
  · constructor
    · rintro ⟨e, he⟩
      cases hm : m.input_file with
      | none => rfl
      | some f => simp [ext_get_ffmpeg_args, hm] at he
    · intro hm
      exact ⟨"Input file has not been set", by simp [ext_get_ffmpeg_args, hm]⟩
  · intro f hm
    simp [ext_get_ffmpeg_args, hm]

/-- A concrete mapper state with the input file set. -/
def extractMapperExample : ExtractMapperState :=
  { generic_options := ["-hide_banner", "-loglevel", "info"],
    main_options := [],
    advanced_options := ["-map", "0:s:0", "-c:s:0", "copy"],
    input_file := some "/library/file.mkv" }

/-- Witness for `c10_input_file_precondition` on a mapper whose input file is set. -/
theorem c10_input_file_precondition_witness :
    extractMapperExample.input_file = some "/library/file.mkv" ∧
    ext_get_ffmpeg_args extractMapperExample
      = Except.ok (extractMapperExample.generic_options ++ ["-i", "/library/file.mkv"]
          ++ extractMapperExample.main_options ++ extractMapperExample.advanced_options) :=
  ⟨rfl, (c10_input_file_precondition extractMapperExample).2 "/library/file.mkv" rfl⟩

/-! ## Theorems: language resolver (claim C9) -/

/-- One external lookup failing: missing credentials, an empty lookup
response, a first record without a truthy `originalLanguage`, or a language
name absent from the name table. -/
def lookupFailure (url api_key : String) (data : List LookupRecord)
    (alpha3OfName : String → Option String) : Prop :=
  url = "" ∨ api_key = "" ∨ data = [] ∨
    (∃ entry rest, data = entry :: rest ∧
      (entry.originalLanguage = none ∨
        ∃ lang_name, entry.originalLanguage = some lang_name ∧
          alpha3OfName lang_name = none))

theorem get_language_from_radarr_failure (cfg : ReorderPluginSettings)
    (movie_data : List LookupRecord) (alpha3OfName : String → Option String)
    (h : lookupFailure cfg.radarr_url cfg.radarr_api_key movie_data alpha3OfName) :
    get_language_from_radarr cfg movie_data alpha3OfName = none := by
  rcases h with h | h | h | ⟨entry, rest, hsd, hcase⟩
  · simp [get_language_from_radarr, h]
  · simp [get_language_from_radarr, h]
  · subst h
    unfold get_language_from_radarr
    split
    · rfl
    · rfl
  · subst hsd
    unfold get_language_from_radarr
    split
    · rfl
    · rcases hcase with h | ⟨lang_name, hnm, hpc⟩
      · simp [h]
      · simp [hnm, hpc]

theorem get_language_from_sonarr_failure (cfg : ReorderPluginSettings)
    (series_data : List LookupRecord) (alpha3OfName : String → Option String)
    (h : lookupFailure cfg.sonarr_url cfg.sonarr_api_key series_data alpha3OfName) :
    get_language_from_sonarr cfg series_data alpha3OfName = none := by
  rcases h with h | h | h | ⟨entry, rest, hsd, hcase⟩
  · simp [get_language_from_sonarr, h]
  · simp [get_language_from_sonarr, h]
  · subst h
    unfold get_language_from_sonarr
    split
    · rfl
    · rfl
  · subst hsd
    unfold get_language_from_sonarr
    split
    · rfl
    · rcases hcase with h | ⟨lang_name, hnm, hpc⟩
      · simp [h]
      · simp [hnm, hpc]

theorem pyOrDefault_falsy (v : Option String) (dflt : String)
    (h : pyFalsy v = true) : pyOrDefault v dflt = dflt := by
  cases v with
  | none => rfl
  | some s =>
    simp only [pyFalsy] at h
    simp [pyOrDefault, h]

theorem pyOrDefault_truthy (s : String) (dflt : String) (h : s ≠ "") :
    pyOrDefault (some s) dflt = s := by
  simp [pyOrDefault, h]

/-- C9: the resolver tries source A (Radarr), then source B (Sonarr), then
the configured search string.  Each enumerated lookup failure (missing
credentials, empty lookup result, missing original-language field, name not
in the lookup table) makes the corresponding lookup yield no result rather
than an error; when neither enabled source yields a truthy code the caller
receives the configured default; a truthy source-A code is used without
consulting source B; and a truthy source-B code is used when source A is
disabled or yielded nothing. -/
theorem c9_resolver_fallback (cfg : ReorderPluginSettings)
    (movie_data series_data : List LookupRecord)
    (alpha3OfName : String → Option String) :
    (lookupFailure cfg.radarr_url cfg.radarr_api_key movie_data alpha3OfName →
      get_language_from_radarr cfg movie_data alpha3OfName = none) ∧
    (lookupFailure cfg.sonarr_url cfg.sonarr_api_key series_data alpha3OfName →
      get_language_from_sonarr cfg series_data alpha3OfName = none) ∧
    ((cfg.use_radarr = false ∨
        pyFalsy (get_language_from_radarr cfg movie_data alpha3OfName) = true) →
      (cfg.use_sonarr = false ∨
        pyFalsy (get_language_from_sonarr cfg series_data alpha3OfName) = true) →
      set_langcode cfg movie_data series_data alpha3OfName = cfg.search_string) ∧
    (∀ code, cfg.use_radarr = true →
      get_language_from_radarr cfg movie_data alpha3OfName = some code →
      code ≠ "" →
      set_langcode cfg movie_data series_data alpha3OfName = code) ∧
    (∀ code,
      (cfg.use_radarr = false ∨
        pyFalsy (get_language_from_radarr cfg movie_data alpha3OfName) = true) →
      cfg.use_sonarr = true →
      get_language_from_sonarr cfg series_data alpha3OfName = some code →
      code ≠ "" →
      set_langcode cfg movie_data series_data alpha3OfName = code) := by
  have hl1 : (cfg.use_radarr = false ∨
      pyFalsy (get_language_from_radarr cfg movie_data alpha3OfName) = true) →
      pyFalsy (if cfg.use_radarr then
        get_language_from_radarr cfg movie_data alpha3OfName
      else some "") = true := by
    intro hA
    rcases hA with hA | hA
    · simp [hA, pyFalsy]
    · cases hr : cfg.use_radarr
      · simp [pyFalsy]
      · simp [hr, hA]
  refine ⟨get_language_from_radarr_failure cfg movie_data alpha3OfName,
    get_language_from_sonarr_failure cfg series_data alpha3OfName, ?_, ?_, ?_⟩
  · intro hA hB
    simp only [set_langcode]
    rcases hB with hB | hB
    · simp only [hB, Bool.false_and, if_false]
      exact pyOrDefault_falsy _ _ (hl1 hA)
    · cases hs : cfg.use_sonarr
      · simp only [Bool.false_and, if_false]
        exact pyOrDefault_falsy _ _ (hl1 hA)
      · simp only [Bool.true_and, hl1 hA, if_true]
        exact pyOrDefault_falsy _ _ hB
  · intro code hr hra hcode
    have hf : pyFalsy (some code) = false := by
      simp [pyFalsy, hcode]
    simp only [set_langcode, hr, if_true, hra, hf, Bool.and_false, if_false]
    exact pyOrDefault_truthy code cfg.search_string hcode
  · intro code hA hs hsb hcode
    simp only [set_langcode, hs, Bool.true_and, hl1 hA, if_true, hsb]
    exact pyOrDefault_truthy code cfg.search_string hcode

/-- The claim's concrete configuration: Radarr off, Sonarr on, default `"spa"`. -/
def resolverCfgExample : ReorderPluginSettings :=
  { use_radarr := false, use_sonarr := true, search_string := "spa",
    radarr_url := "http://localhost:7878", radarr_api_key := "",
    sonarr_url := "http://localhost:8989", sonarr_api_key := "apikey" }

/-- Both sources enabled and fully configured. -/
def resolverCfgBoth : ReorderPluginSettings :=
  { use_radarr := true, use_sonarr := true, search_string := "spa",
    radarr_url := "http://localhost:7878", radarr_api_key := "key1",
    sonarr_url := "http://localhost:8989", sonarr_api_key := "key2" }

/-- Both sources enabled, but the Radarr API key missing. -/
def resolverCfgNoRadarrKey : ReorderPluginSettings :=
  { use_radarr := true, use_sonarr := true, search_string := "spa",
    radarr_url := "http://localhost:7878", radarr_api_key := "",
    sonarr_url := "http://localhost:8989", sonarr_api_key := "key2" }

/-- A lookup response whose first record names Japanese as original language. -/
def jpLookup : List LookupRecord :=
  [{ originalLanguage := some "Japanese" }]

/-- A language-name table knowing only Japanese. -/
def jpTable : String → Option String :=
  fun lang_name => if lang_name = "Japanese" then some "jpn" else none

/-- Witness for `c9_resolver_fallback`: a Radarr failure (missing API key)
is swallowed; a Sonarr failure (empty lookup) is swallowed; with Radarr off
and Sonarr returning no data the result is the configured `"spa"`; a Radarr
success resolves to its code; with Radarr failing, a Sonarr success resolves
to its code. -/
theorem c9_resolver_fallback_witness :
    get_language_from_radarr resolverCfgNoRadarrKey jpLookup jpTable = none ∧
    get_language_from_sonarr resolverCfgExample [] jpTable = none ∧
    set_langcode resolverCfgExample [] [] jpTable = "spa" ∧
    set_langcode resolverCfgBoth jpLookup [] jpTable = "jpn" ∧
    set_langcode resolverCfgNoRadarrKey [] jpLookup jpTable = "jpn" := by
  have hA := c9_resolver_fallback resolverCfgNoRadarrKey jpLookup [] jpTable
  have hB := c9_resolver_fallback resolverCfgExample [] [] jpTable
  have hC := c9_resolver_fallback resolverCfgBoth jpLookup [] jpTable
  have hD := c9_resolver_fallback resolverCfgNoRadarrKey [] jpLookup jpTable
  refine ⟨hA.1 (Or.inr (Or.inl rfl)), hB.2.1 (Or.inr (Or.inr (Or.inl rfl))), ?_, ?_, ?_⟩
  · exact hB.2.2.1 (Or.inl rfl)
      (Or.inr (by rw [hB.2.1 (Or.inr (Or.inr (Or.inl rfl)))]; rfl))
  · exact hC.2.2.2.1 "jpn" rfl (by decide) (by decide)
  · exact hD.2.2.2.2 "jpn"
      (Or.inr (by rw [hD.1 (Or.inr (Or.inl rfl))]; rfl)) rfl (by decide) (by decide)

/-! ## reorder_audio_streams_by_language: bucketing and reorder detection -/

/-- `PluginStreamMapper.test_tags_for_search_string`: the tags must be a
non-empty mapping with some key lowercasing to `title` or `language`; then
the language tag is matched case-insensitively against the search string,
while the title check lowercases only the title, not the search string. -/
def test_tags_for_search_string (search_string : String)
    (stream_tags : Option (List (String × String))) : Bool :=
  match stream_tags with
  | none => false
  | some tags =>
    if tags.any (fun p => pyLower p.1 == "title" || pyLower p.1 == "language") then
      if pyIn (pyLower search_string) (pyLower ((tagsGet tags "language").getD "")) then
        true
      else if pyIn search_string (pyLower ((tagsGet tags "title").getD "")) then
        true
      else false
    else false

/-- The mutable bucket state of the reorder plugin's mapper. -/
structure ReorderState where
  found_search_string_streams : Bool
  first_stream_mapping : List String
  search_string_stream_mapping : List String
  unmatched_stream_mapping : List String
  last_stream_mapping : List String
deriving DecidableEq

/-- The bucket state as initialised in `PluginStreamMapper.__init__`. -/
def initReorderState : ReorderState :=
  { found_search_string_streams := false, first_stream_mapping := [],
    search_string_stream_mapping := [], unmatched_stream_mapping := [],
    last_stream_mapping := [] }

/-- The `ident` dictionary lookup of `custom_stream_mapping` (`dict.get`
renders `None` for an unknown type, which Python would format as `"None"`). -/
def identGet (codec_type : String) : String :=
  if codec_type = "video" then "v"
  else if codec_type = "audio" then "a"
  else if codec_type = "subtitle" then "s"
  else if codec_type = "data" then "d"
  else if codec_type = "attachment" then "t"
  else "None"

/-- The stream-selector token `"0:{ident}:{stream_id}"`. -/
def fmtSel (ident : String) (stream_id : Nat) : String :=
  "0:" ++ ident ++ ":" ++ natString stream_id

/-- The disposition token `"-disposition:{ident}:{0}"`. -/
def fmtDisp (ident : String) : String :=
  "-disposition:" ++ ident ++ ":" ++ natString 0

/-- `PluginStreamMapper.custom_stream_mapping` of the reorder plugin: place
the stream's mapping fragment into one of the four buckets.  The first
matched stream of interest additionally emits the disposition-default
override tokens. -/
def reorder_custom_stream_mapping (search_string : String) (st : ReorderState)
    (stream_info : FFStream) (stream_id : Nat) : ReorderState :=
  let codec_type := pyLower stream_info.codec_type
  let idl := identGet codec_type
  if codec_type = "audio" then
    if test_tags_for_search_string search_string stream_info.tags then
      if st.search_string_stream_mapping.length = 0 then
        { st with found_search_string_streams := true,
                  search_string_stream_mapping :=
                    st.search_string_stream_mapping ++
                      ["-map", fmtSel idl stream_id, fmtDisp idl, "default"] }
      else
        { st with found_search_string_streams := true,
                  search_string_stream_mapping :=
                    st.search_string_stream_mapping ++ ["-map", fmtSel idl stream_id] }
    else
      { st with unmatched_stream_mapping :=
                  st.unmatched_stream_mapping ++ ["-map", fmtSel idl stream_id] }
  else
    if !st.found_search_string_streams then
      { st with first_stream_mapping :=
                  st.first_stream_mapping ++ ["-map", fmtSel idl stream_id] }
    else
      { st with last_stream_mapping :=
                  st.last_stream_mapping ++ ["-map", fmtSel idl stream_id] }

/-- Modelled from the spec: the shared mapper base class (`lib/ffmpeg`'s
`StreamMapper`, vendored by the plugin but not under `src/`) drives the
classifier over the stream list in probe order and maintains one running
per-type position counter (§4.2); the reorder plugin registers every stream
type and its per-stream test always returns true, so `custom_stream_mapping`
is invoked for every stream with its type-scoped index. -/
def mapStreams (search_string : String) :
    ReorderState → (String → Nat) → List FFStream → ReorderState
  | st, _, [] => st
  | st, counters, s :: rest =>
    mapStreams search_string
      (reorder_custom_stream_mapping search_string st s (counters s.codec_type))
      (fun t => if t = s.codec_type then counters t + 1 else counters t)
      rest

/-- `test_stream_needs_processing` of the reorder plugin: always true, so
every stream reaches `custom_stream_mapping`. -/
def reorder_test_stream_needs_processing (_stream_info : FFStream) : Bool :=
  true

/-- One mapping pass over a file's streams (`self.streams_need_processing()`
called on a fresh mapper, as each runner does). -/
def runReorderMapping (search_string : String) (streams : List FFStream) : ReorderState :=
  mapStreams search_string initReorderState (fun _ => 0) streams

/-- The token scan loop inside `streams_to_be_reordered`: skip every token
containing `-map`, `-disposition` or `default` as a substring, and compare
each remaining selector token's trailing index against a counter that only
counts those selector tokens. -/
def scanTokens : List String → Nat → Bool
  | [], _ => false
  | item :: rest, counter =>
    if pyIn "-map" item || pyIn "-disposition" item || pyIn "default" item then
      scanTokens rest counter
    else if pyIntStr ((pySplit ':' item).getLastD "") ≠ counter then true
    else scanTokens rest (counter + 1)

/-- `PluginStreamMapper.streams_to_be_reordered`: map the streams, then
report a needed reorder iff both the matched and unmatched buckets are
non-empty and the scan finds a position mismatch. -/
def streams_to_be_reordered (search_string : String) (streams : List FFStream) : Bool :=
  let st := runReorderMapping search_string streams
  if !st.search_string_stream_mapping.isEmpty && !st.unmatched_stream_mapping.isEmpty then
    scanTokens (st.search_string_stream_mapping ++ st.unmatched_stream_mapping) 0
  else false

/-- Spec-side view of the bucketing: the audio (type-of-interest) streams'
type-scoped indices, split into the matched and the unmatched bucket in
encounter order, starting the audio counter at `a`. -/
def bucketAudioIdx (search_string : String) : List FFStream → Nat → List Nat × List Nat
  | [], _ => ([], [])
  | s :: rest, a =>
    if pyLower s.codec_type = "audio" then
      let p := bucketAudioIdx search_string rest (a + 1)
      if test_tags_for_search_string search_string s.tags then (a :: p.1, p.2)
      else (p.1, a :: p.2)
    else bucketAudioIdx search_string rest a

/-- The concatenated matched-then-unmatched audio index sequence. -/
def reorderSel (search_string : String) (streams : List FFStream) : List Nat :=
  (bucketAudioIdx search_string streams 0).1 ++ (bucketAudioIdx search_string streams 0).2

/-- The mapping fragments of a list of audio bucket indices, two tokens per
stream. -/
def plainFrags : List Nat → List String
  | [] => []
  | i :: rest => ["-map", fmtSel "a" i] ++ plainFrags rest

/-- The matched bucket's fragments: when no match has been recorded yet
(flag `true`), the first fragment carries the disposition-default tokens. -/
def matchedFrags : Bool → List Nat → List String
  | _, [] => []
  | true, i :: rest => ["-map", fmtSel "a" i, fmtDisp "a", "default"] ++ matchedFrags false rest
  | false, i :: rest => ["-map", fmtSel "a" i] ++ matchedFrags false rest

/-- The probe document's `codec_type` values the `ident` dictionary of the
plugin accounts for. -/
def WellTyped (streams : List FFStream) : Prop :=
  ∀ s ∈ streams,
    s.codec_type ∈ (["video", "audio", "subtitle", "data", "attachment"] : List String)

/-- The claim's matched-bucket predicate as written (C4): language tag
contains the search string case-insensitively, or the lowercased title tag
contains the lowercased search string. -/
def claimC4Match (search_string : String) (s : FFStream) : Bool :=
  let tags := s.tags.getD []
  pyIn (pyLower search_string) (pyLower ((tagsGet tags "language").getD "")) ||
    pyIn (pyLower search_string) (pyLower ((tagsGet tags "title").getD ""))

/-- The amended matched-bucket predicate (C4): the tags mapping must exist
and contain a key lowercasing to `title` or `language`, and then either the
lowercased language tag contains the lowercased search string, or the
lowercased title tag contains the search string verbatim. -/
def specC4Match (search_string : String) (s : FFStream) : Bool :=
  match s.tags with
  | none => false
  | some tags =>
    decide ((∃ p ∈ tags, pyLower p.1 = "title" ∨ pyLower p.1 = "language") ∧
      (pyIn (pyLower search_string) (pyLower ((tagsGet tags "language").getD "")) = true ∨
       pyIn search_string (pyLower ((tagsGet tags "title").getD "")) = true))

/-! ## Lemmas about the decimal rendering and the token scan primitives -/

/-- Proof-side recursive view of the decimal digits of `n`. -/
def digitsSpec (n : Nat) : List Char :=
  if _h : n < 10 then [digitChar n]
  else digitsSpec (n / 10) ++ [digitChar (n % 10)]
termination_by n
decreasing_by exact Nat.div_lt_self (by omega) (by omega)

theorem digitChar_mem (k : Nat) : digitChar k ∈ digitList := by
  rcases k with _ | _ | _ | _ | _ | _ | _ | _ | _ | k
  · decide
  · decide
  · decide
  · decide
  · decide
  · decide
  · decide
  · decide
  · decide
  · show '9' ∈ digitList
    decide

theorem digitsSpec_mem (n : Nat) : ∀ c ∈ digitsSpec n, c ∈ digitList := by
  induction n using Nat.strong_induction_on with
  | _ n ih =>
    rw [digitsSpec]
    split
    · intro c hc
      rcases List.mem_singleton.mp hc with rfl
      exact digitChar_mem n
    · intro c hc
      rcases List.mem_append.mp hc with h | h
      · exact ih (n / 10) (Nat.div_lt_self (by omega) (by omega)) c h
      · rcases List.mem_singleton.mp h with rfl
        exact digitChar_mem (n % 10)

theorem natDigitsCore_eq_digitsSpec (fuel : Nat) :
    ∀ n acc, 0 < fuel → n < 10 ^ fuel →
      natDigitsCore fuel n acc = digitsSpec n ++ acc := by
  induction fuel with
  | zero => intro n acc h; omega
  | succ fuel ih =>
    intro n acc _ hlt
    rw [natDigitsCore]
    split
    · rw [digitsSpec]
      simp [*]
    · have hdiv : n / 10 < 10 ^ fuel := by
        rw [pow_succ, Nat.mul_comm] at hlt
        exact Nat.div_lt_of_lt_mul hlt
      have hfuel : 0 < fuel := by
        rcases Nat.eq_zero_or_pos fuel with h0 | h0
        · subst h0
          simp at hdiv
          omega
        · exact h0
      rw [ih (n / 10) (digitChar (n % 10) :: acc) hfuel hdiv]
      conv_rhs => rw [digitsSpec]
      split
      · omega
      · simp

theorem natDigits_eq_digitsSpec (n : Nat) : natDigits n = digitsSpec n := by
  have h1 : n < 10 ^ (n + 1) := by
    calc n < 10 ^ n := Nat.lt_pow_self (by omega) n
    _ ≤ 10 ^ (n + 1) := Nat.pow_le_pow_right (by omega) (by omega)
  rw [natDigits, natDigitsCore_eq_digitsSpec (n + 1) n [] (by omega) h1,
    List.append_nil]

theorem natDigits_mem (n : Nat) : ∀ c ∈ natDigits n, c ∈ digitList := by
  rw [natDigits_eq_digitsSpec]
  exact digitsSpec_mem n

theorem digVal_digitChar : ∀ k, k < 10 → digVal (digitChar k) = k := by
  decide

theorem parseDigits_digitsSpec (n : Nat) : parseDigits (digitsSpec n) = n := by
  induction n using Nat.strong_induction_on with
  | _ n ih =>
    rw [digitsSpec]
    split
    · simp [parseDigits, digVal_digitChar n (by omega)]
    · have hrec := ih (n / 10) (Nat.div_lt_self (by omega) (by omega))
      simp only [parseDigits] at hrec ⊢
      rw [List.foldl_append, hrec]
      simp [digVal_digitChar (n % 10) (by omega)]
      omega

theorem pyIntStr_natString (n : Nat) : pyIntStr (natString n) = n := by
  show parseDigits (natDigits n) = n
  rw [natDigits_eq_digitsSpec]
  exact parseDigits_digitsSpec n

theorem startsWithL_subset {needle hay : List Char}
    (h : startsWithL needle hay = true) : ∀ c ∈ needle, c ∈ hay := by
  induction needle generalizing hay with
  | nil => intro c hc; cases hc
  | cons a as ih =>
    cases hay with
    | nil => cases h
    | cons b bs =>
      rw [startsWithL, Bool.and_eq_true, beq_iff_eq] at h
      intro c hc
      rcases List.mem_cons.mp hc with rfl | hc
      · rw [h.1]; exact List.mem_cons_self _ _
      · exact List.mem_cons_of_mem _ (ih h.2 c hc)

theorem substrL_subset {needle hay : List Char}
    (h : substrL needle hay = true) : ∀ c ∈ needle, c ∈ hay := by
  induction hay with
  | nil =>
    rw [substrL, List.isEmpty_eq_true] at h
    subst h
    intro c hc
    cases hc
  | cons b t ih =>
    rw [substrL, Bool.or_eq_true] at h
    rcases h with h | h
    · exact startsWithL_subset h
    · intro c hc
      exact List.mem_cons_of_mem _ (ih h c hc)

theorem substrL_eq_false {needle hay : List Char} (w : Char)
    (hw : w ∈ needle) (hnot : w ∉ hay) : substrL needle hay = false := by
  cases h : substrL needle hay with
  | false => rfl
  | true => exact absurd (substrL_subset h w hw) hnot

/-- The chars of an audio selector token. -/
theorem fmtSel_a_data (n : Nat) :
    (fmtSel "a" n).data = '0' :: ':' :: 'a' :: ':' :: natDigits n := by
  have happ : ∀ a b : String, (a ++ b).data = a.data ++ b.data := by
    intro a b
    cases a
    cases b
    rfl
  simp [fmtSel, natString, happ]

theorem mem_fmtSel_a {n : Nat} {c : Char} (hc : c ∈ (fmtSel "a" n).data) :
    c = '0' ∨ c = ':' ∨ c = 'a' ∨ c ∈ digitList := by
  rw [fmtSel_a_data] at hc
  rcases List.mem_cons.mp hc with rfl | hc
  · exact Or.inl rfl
  rcases List.mem_cons.mp hc with rfl | hc
  · exact Or.inr (Or.inl rfl)
  rcases List.mem_cons.mp hc with rfl | hc
  · exact Or.inr (Or.inr (Or.inl rfl))
  rcases List.mem_cons.mp hc with rfl | hc
  · exact Or.inr (Or.inl rfl)
  · exact Or.inr (Or.inr (Or.inr (natDigits_mem n c hc)))

/-- A selector token is never skipped by the scan's substring filter. -/
theorem fmtSel_not_skipped (n : Nat) :
    (pyIn "-map" (fmtSel "a" n) || pyIn "-disposition" (fmtSel "a" n)
      || pyIn "default" (fmtSel "a" n)) = false := by
  have hdash : '-' ∉ (fmtSel "a" n).data := by
    intro h
    rcases mem_fmtSel_a h with h | h | h | h <;> revert h <;> decide
  have hd : 'd' ∉ (fmtSel "a" n).data := by
    intro h
    rcases mem_fmtSel_a h with h | h | h | h <;> revert h <;> decide
  have h1 : pyIn "-map" (fmtSel "a" n) = false :=
    substrL_eq_false '-' (by decide) hdash
  have h2 : pyIn "-disposition" (fmtSel "a" n) = false :=
    substrL_eq_false '-' (by decide) hdash
  have h3 : pyIn "default" (fmtSel "a" n) = false :=
    substrL_eq_false 'd' (by decide) hd
  rw [h1, h2, h3]
  rfl

theorem splitChar_no_sep {sep : Char} : ∀ {l : List Char}, sep ∉ l →
    splitChar sep l = [l] := by
  intro l
  induction l with
  | nil => intro _; rfl
  | cons x xs ih =>
    intro h
    have hxs : ¬ (x = sep) := fun hx => h (by rw [hx]; exact List.mem_cons_self _ _)
    rw [splitChar, ih (fun hx => h (List.mem_cons_of_mem _ hx))]
    simp [hxs]

/-- The scan parses a selector token back to its stream index. -/
theorem fmtSel_parses (n : Nat) :
    pyIntStr ((pySplit ':' (fmtSel "a" n)).getLastD "") = n := by
  have hd : ':' ∉ natDigits n := by
    intro h
    have := natDigits_mem n ':' h
    revert this
    decide
  have h1 : splitChar ':' (natDigits n) = [natDigits n] := splitChar_no_sep hd
  have h2 : splitChar ':' (':' :: natDigits n) = [[], natDigits n] := by
    rw [splitChar, h1]
    simp
  have h3 : splitChar ':' ('a' :: ':' :: natDigits n) = [['a'], natDigits n] := by
    rw [splitChar, h2]
    simp
  have h4 : splitChar ':' (':' :: 'a' :: ':' :: natDigits n)
      = [[], ['a'], natDigits n] := by
    rw [splitChar, h3]
    simp
  have h5 : splitChar ':' ('0' :: ':' :: 'a' :: ':' :: natDigits n)
      = [['0'], ['a'], natDigits n] := by
    rw [splitChar, h4]
    simp
  show pyIntStr (((splitChar ':' (fmtSel "a" n).data).map String.mk).getLastD "") = n
  rw [fmtSel_a_data, h5]
  show pyIntStr (String.mk (natDigits n)) = n
  exact pyIntStr_natString n

/-! ## Bucket structure of the reorder mapping pass -/

theorem rcsm_non_audio (search_string : String) (st : ReorderState) (s : FFStream)
    (sid : Nat) (h : ¬ pyLower s.codec_type = "audio") :
    (reorder_custom_stream_mapping search_string st s sid).search_string_stream_mapping
        = st.search_string_stream_mapping
    ∧ (reorder_custom_stream_mapping search_string st s sid).unmatched_stream_mapping
        = st.unmatched_stream_mapping := by
  simp only [reorder_custom_stream_mapping]
  rw [if_neg h]
  split
  · exact ⟨rfl, rfl⟩
  · exact ⟨rfl, rfl⟩

theorem matchedFrags_false_eq (l : List Nat) : matchedFrags false l = plainFrags l := by
  induction l with
  | nil => rfl
  | cons i rest ih => simp [matchedFrags, plainFrags, ih]

theorem plainFrags_append (a b : List Nat) :
    plainFrags (a ++ b) = plainFrags a ++ plainFrags b := by
  induction a with
  | nil => simp [plainFrags]
  | cons i rest ih => simp [plainFrags, ih]

theorem matchedFrags_true_eq_nil {m : List Nat} :
    matchedFrags true m = [] ↔ m = [] := by
  cases m <;> simp [matchedFrags]

theorem plainFrags_eq_nil {u : List Nat} : plainFrags u = [] ↔ u = [] := by
  cases u <;> simp [plainFrags]

/-- The matched and unmatched buckets accumulated by the mapping pass are
exactly the fragments of the audio streams' bucketed type-scoped indices, in
encounter order, with the disposition tokens on the first matched fragment
when the matched bucket starts empty. -/
theorem mapStreams_buckets (search_string : String) :
    ∀ (streams : List FFStream) (st : ReorderState) (counters : String → Nat),
      WellTyped streams →
      (mapStreams search_string st counters streams).search_string_stream_mapping
        = st.search_string_stream_mapping
          ++ matchedFrags st.search_string_stream_mapping.isEmpty
               (bucketAudioIdx search_string streams (counters "audio")).1
      ∧ (mapStreams search_string st counters streams).unmatched_stream_mapping
        = st.unmatched_stream_mapping
          ++ plainFrags (bucketAudioIdx search_string streams (counters "audio")).2 := by
  intro streams
  induction streams with
  | nil =>
    intro st counters _
    simp [mapStreams, bucketAudioIdx, matchedFrags, plainFrags]
  | cons s rest ih =>
    intro st counters hw
    have hs : s.codec_type ∈ (["video", "audio", "subtitle", "data", "attachment"] : List String) :=
      hw s (List.mem_cons_self _ _)
    have hw' : WellTyped rest := fun x hx => hw x (List.mem_cons_of_mem _ hx)
    rw [mapStreams]
    obtain ⟨ih1, ih2⟩ :=
      ih (reorder_custom_stream_mapping search_string st s (counters s.codec_type))
        (fun t => if t = s.codec_type then counters t + 1 else counters t) hw'
    have hcases : s.codec_type = "video" ∨ s.codec_type = "audio" ∨
        s.codec_type = "subtitle" ∨ s.codec_type = "data" ∨
        s.codec_type = "attachment" := by simpa using hs
    by_cases haud : pyLower s.codec_type = "audio"
    · -- stream of the type of interest
      have htype : s.codec_type = "audio" := by
        rcases hcases with h | h | h | h | h <;> rw [h] <;> rw [h] at haud <;>
          first | rfl | (exfalso; revert haud; decide)
      have hcnt : (if "audio" = s.codec_type then counters "audio" + 1 else counters "audio")
          = counters "audio" + 1 := by
        rw [htype]
        simp
      have hbkt : bucketAudioIdx search_string (s :: rest) (counters "audio")
          = if test_tags_for_search_string search_string s.tags then
              ((counters "audio") :: (bucketAudioIdx search_string rest (counters "audio" + 1)).1,
               (bucketAudioIdx search_string rest (counters "audio" + 1)).2)
            else
              ((bucketAudioIdx search_string rest (counters "audio" + 1)).1,
               (counters "audio") :: (bucketAudioIdx search_string rest (counters "audio" + 1)).2) := by
        rw [bucketAudioIdx, if_pos haud]
      rw [hcnt] at ih1 ih2
      rw [ih1, ih2, hbkt]
      have hida : identGet (pyLower s.codec_type) = "a" := by
        rw [haud]
        rfl
      by_cases ht : test_tags_for_search_string search_string s.tags
      · rw [if_pos ht]
        by_cases he : st.search_string_stream_mapping = []
        · have hrc : reorder_custom_stream_mapping search_string st s (counters s.codec_type)
              = { st with found_search_string_streams := true,
                          search_string_stream_mapping :=
                            st.search_string_stream_mapping ++
                              ["-map", fmtSel "a" (counters "audio"),
                               fmtDisp "a", "default"] } := by
            simp only [reorder_custom_stream_mapping]
            rw [if_pos haud, if_pos ht, if_pos (by simp [he]), hida, htype]
          rw [hrc]
          constructor
          · simp [he, matchedFrags, matchedFrags_false_eq]
          · simp
        · have hrc : reorder_custom_stream_mapping search_string st s (counters s.codec_type)
              = { st with found_search_string_streams := true,
                          search_string_stream_mapping :=
                            st.search_string_stream_mapping ++
                              ["-map", fmtSel "a" (counters "audio")] } := by
            simp only [reorder_custom_stream_mapping]
            rw [if_pos haud, if_pos ht, if_neg (by simp [he]), hida, htype]
          rw [hrc]
          have hne1 : st.search_string_stream_mapping.isEmpty = false := by
            cases hl : st.search_string_stream_mapping with
            | nil => exact absurd hl he
            | cons a l => rfl
          have hne2 : (st.search_string_stream_mapping
              ++ ["-map", fmtSel "a" (counters "audio")]).isEmpty = false := by
            cases st.search_string_stream_mapping <;> rfl
          constructor
          · simp [hne1, hne2, matchedFrags]
          · simp
      · rw [if_neg ht]
        have hrc : reorder_custom_stream_mapping search_string st s (counters s.codec_type)
            = { st with unmatched_stream_mapping :=
                          st.unmatched_stream_mapping ++
                            ["-map", fmtSel "a" (counters "audio")] } := by
          simp only [reorder_custom_stream_mapping]
          rw [if_pos haud, if_neg ht, hida, htype]
        rw [hrc]
        constructor
        · simp
        · simp [plainFrags]
    · -- stream of another type: buckets of interest unchanged
      have htype : ¬ (s.codec_type = "audio") := by
        intro h
        rw [h] at haud
        revert haud
        decide
      have hcnt : (if "audio" = s.codec_type then counters "audio" + 1 else counters "audio")
          = counters "audio" := by
        rw [if_neg (fun h => htype h.symm)]
      have hbkt : bucketAudioIdx search_string (s :: rest) (counters "audio")
          = bucketAudioIdx search_string rest (counters "audio") := by
        rw [bucketAudioIdx, if_neg haud]
      obtain ⟨hu1, hu2⟩ :=
        rcsm_non_audio search_string st s (counters s.codec_type) haud
      rw [hcnt] at ih1 ih2
      rw [ih1, ih2, hbkt, hu1, hu2]
      exact ⟨rfl, rfl⟩

/-! ## The token scan of streams_to_be_reordered -/

theorem scanTokens_plainFrags (l : List Nat) :
    ∀ c, (scanTokens (plainFrags l) c = true ↔ l ≠ List.range' c l.length) := by
  induction l with
  | nil =>
    intro c
    simp [plainFrags, scanTokens, List.range']
  | cons i rest ih =>
    intro c
    have hskip : (pyIn "-map" "-map" || pyIn "-disposition" "-map"
        || pyIn "default" "-map") = true := by decide
    have hp : pyIntStr ((pySplit ':' (fmtSel "a" i)).getLast?.getD "") = i := by
      rw [← List.getLastD_eq_getLast?]
      exact fmtSel_parses i
    have hstep : scanTokens (plainFrags (i :: rest)) c
        = if i ≠ c then true else scanTokens (plainFrags rest) (c + 1) := by
      show scanTokens ("-map" :: fmtSel "a" i :: plainFrags rest) c = _
      simp [scanTokens, hskip, fmtSel_not_skipped i, hp]
    rw [hstep, List.length_cons, List.range'_succ]
    by_cases hic : i = c
    · subst hic
      rw [if_neg (by omega)]
      rw [ih (i + 1)]
      simp [List.cons.injEq]
    · rw [if_pos hic]
      simp [List.cons.injEq, hic]

theorem scanTokens_matched (m u : List Nat) (hm : m ≠ []) :
    (scanTokens (matchedFrags true m ++ plainFrags u) 0 = true ↔
      m ++ u ≠ List.range (m ++ u).length) := by
  obtain ⟨i, m', rfl⟩ : ∃ i m', m = i :: m' := by
    cases m with
    | nil => exact absurd rfl hm
    | cons a b => exact ⟨a, b, rfl⟩
  have htok : matchedFrags true (i :: m') ++ plainFrags u
      = "-map" :: fmtSel "a" i :: fmtDisp "a" :: "default" :: plainFrags (m' ++ u) := by
    simp [matchedFrags, matchedFrags_false_eq, plainFrags_append]
  rw [htok]
  have hskip1 : (pyIn "-map" "-map" || pyIn "-disposition" "-map"
      || pyIn "default" "-map") = true := by decide
  have hskip2 : (pyIn "-map" (fmtDisp "a") || pyIn "-disposition" (fmtDisp "a")
      || pyIn "default" (fmtDisp "a")) = true := by decide
  have hskip3 : (pyIn "-map" "default" || pyIn "-disposition" "default"
      || pyIn "default" "default") = true := by decide
  have hp : pyIntStr ((pySplit ':' (fmtSel "a" i)).getLast?.getD "") = i := by
    rw [← List.getLastD_eq_getLast?]
    exact fmtSel_parses i
  have hstep : scanTokens
      ("-map" :: fmtSel "a" i :: fmtDisp "a" :: "default" :: plainFrags (m' ++ u)) 0
      = if i ≠ 0 then true else scanTokens (plainFrags (m' ++ u)) 1 := by
    simp [scanTokens, hskip1, hskip2, hskip3, fmtSel_not_skipped i, hp]
  rw [hstep]
  simp only [List.cons_append, List.length_cons, List.range_eq_range',
    List.range'_succ, Nat.zero_add]
  by_cases hi0 : i = 0
  · subst hi0
    rw [if_neg (by omega)]
    rw [scanTokens_plainFrags (m' ++ u) 1]
    simp [List.cons.injEq]
  · rw [if_pos hi0]
    simp [List.cons.injEq, hi0]

/-! ## Theorems: reorder plugin (claims C1, C4) -/

/-- C1: the reorder verdict is true iff both buckets are non-empty and the
concatenated matched-then-unmatched audio index sequence differs somewhere
from the counter positions `0, 1, 2, …` (equivalently, it is not the
identity enumeration); in particular an already-correctly-ordered stream set
yields `false`, and the verdict is a pure function of the inputs, so this
holds on every run. -/
theorem c1_reorder_verdict (search_string : String) (streams : List FFStream)
    (hw : WellTyped streams) :
    (streams_to_be_reordered search_string streams = true ↔
      ((bucketAudioIdx search_string streams 0).1 ≠ [] ∧
       (bucketAudioIdx search_string streams 0).2 ≠ [] ∧
       reorderSel search_string streams
         ≠ List.range (reorderSel search_string streams).length)) ∧
    (reorderSel search_string streams
        = List.range (reorderSel search_string streams).length →
      streams_to_be_reordered search_string streams = false) := by
  obtain ⟨h1, h2⟩ :=
    mapStreams_buckets search_string streams initReorderState (fun _ => 0) hw
  have hrun1 : (runReorderMapping search_string streams).search_string_stream_mapping
      = matchedFrags true (bucketAudioIdx search_string streams 0).1 := by
    rw [runReorderMapping]
    simpa [initReorderState] using h1
  have hrun2 : (runReorderMapping search_string streams).unmatched_stream_mapping
      = plainFrags (bucketAudioIdx search_string streams 0).2 := by
    rw [runReorderMapping]
    simpa [initReorderState] using h2
  have hmain : streams_to_be_reordered search_string streams = true ↔
      ((bucketAudioIdx search_string streams 0).1 ≠ [] ∧
       (bucketAudioIdx search_string streams 0).2 ≠ [] ∧
       reorderSel search_string streams
         ≠ List.range (reorderSel search_string streams).length) := by
    by_cases hm : (bucketAudioIdx search_string streams 0).1 = []
    · have hemp : matchedFrags true (bucketAudioIdx search_string streams 0).1 = [] :=
        matchedFrags_true_eq_nil.mpr hm
      simp [streams_to_be_reordered, hrun1, hrun2, hemp, hm, matchedFrags]
    · by_cases hu : (bucketAudioIdx search_string streams 0).2 = []
      · have hemp : plainFrags (bucketAudioIdx search_string streams 0).2 = [] :=
          plainFrags_eq_nil.mpr hu
        simp [streams_to_be_reordered, hrun1, hrun2, hemp, hu, plainFrags]
      · have hne1 : (matchedFrags true (bucketAudioIdx search_string streams 0).1).isEmpty
            = false := by
          cases hl : matchedFrags true (bucketAudioIdx search_string streams 0).1 with
          | nil => exact absurd (matchedFrags_true_eq_nil.mp hl) hm
          | cons a l => rfl
        have hne2 : (plainFrags (bucketAudioIdx search_string streams 0).2).isEmpty
            = false := by
          cases hl : plainFrags (bucketAudioIdx search_string streams 0).2 with
          | nil => exact absurd (plainFrags_eq_nil.mp hl) hu
          | cons a l => rfl
        have hscan := scanTokens_matched (bucketAudioIdx search_string streams 0).1
          (bucketAudioIdx search_string streams 0).2 hm
        simp only [streams_to_be_reordered, hrun1, hrun2, hne1, hne2,
          Bool.not_false, Bool.and_self, if_true, reorderSel]
        simp only [hscan, reorderSel]
        simp [hm, hu]
  refine ⟨hmain, fun hrange => ?_⟩
  cases hverdict : streams_to_be_reordered search_string streams with
  | false => rfl
  | true => exact absurd hrange (hmain.mp hverdict).2.2

/-- The amended matched predicate coincides with the source's tag test. -/
theorem specC4Match_eq (search_string : String) (s : FFStream) :
    specC4Match search_string s = test_tags_for_search_string search_string s.tags := by
  cases hts : s.tags with
  | none => simp [specC4Match, test_tags_for_search_string, hts]
  | some tags =>
    simp only [specC4Match, test_tags_for_search_string, hts]
    by_cases hk : tags.any (fun p => pyLower p.1 == "title" || pyLower p.1 == "language")
    · rw [if_pos hk]
      have hkmem : ∃ p ∈ tags, pyLower p.1 = "title" ∨ pyLower p.1 = "language" := by
        rcases List.any_eq_true.mp hk with ⟨p, hp, hor⟩
        exact ⟨p, hp, by simpa using hor⟩
      by_cases hl : pyIn (pyLower search_string)
          (pyLower ((tagsGet tags "language").getD "")) = true
      · rw [if_pos hl]
        simp [hkmem, hl]
      · rw [if_neg hl]
        by_cases htl : pyIn search_string
            (pyLower ((tagsGet tags "title").getD "")) = true
        · rw [if_pos htl]
          simp [hkmem, htl]
        · rw [if_neg htl]
          apply decide_eq_false
          rintro ⟨-, h | h⟩
          · exact hl h
          · exact htl h
    · rw [if_neg hk]
      apply decide_eq_false
      rintro ⟨⟨p, hp, hor⟩, -⟩
      exact hk (List.any_eq_true.mpr ⟨p, hp, by simpa using hor⟩)

/-- C4 (amended): the matched bucket holds exactly the audio streams passing
the source's tag test — tags present with a `title`/`language`-like key, and
either the lowercased language tag contains the lowercased search string or
the lowercased title tag contains the search string verbatim — in encounter
order, with the disposition-default tokens on the first fragment only. -/
theorem c4_matched_bucket (search_string : String) (streams : List FFStream)
    (hw : WellTyped streams) :
    (∀ s : FFStream, specC4Match search_string s
        = test_tags_for_search_string search_string s.tags) ∧
    (runReorderMapping search_string streams).search_string_stream_mapping
      = matchedFrags true (bucketAudioIdx search_string streams 0).1 ∧
    (runReorderMapping search_string streams).unmatched_stream_mapping
      = plainFrags (bucketAudioIdx search_string streams 0).2 := by
  obtain ⟨h1, h2⟩ :=
    mapStreams_buckets search_string streams initReorderState (fun _ => 0) hw
  refine ⟨fun s => specC4Match_eq search_string s, ?_, ?_⟩
  · rw [runReorderMapping]
    simpa [initReorderState] using h1
  · rw [runReorderMapping]
    simpa [initReorderState] using h2

/-- An audio stream whose only tag is a lowercase title `"en"`. -/
def titleCaseStream : FFStream :=
  { codec_type := "audio", codec_name := "aac", channels := some 2,
    tags := some [("title", "en")] }

/-- C4 counterexample: with search string `"EN"`, the claim's predicate (both
sides lowercased) matches the stream, but the source compares the raw search
string against the lowercased title (`'EN' in 'en'` fails), so the stream
lands in the unmatched bucket and the matched bucket stays empty. -/
theorem c4_title_case_counterexample :
    claimC4Match "EN" titleCaseStream = true ∧
    test_tags_for_search_string "EN" titleCaseStream.tags = false ∧
    (runReorderMapping "EN" [titleCaseStream]).search_string_stream_mapping = [] ∧
    (runReorderMapping "EN" [titleCaseStream]).unmatched_stream_mapping
      = ["-map", fmtSel "a" 0] := by
  decide

/-- The spec's worked reorder example: audio:en, video, audio:fr, audio:en. -/
def exampleStreams : List FFStream :=
  [{ codec_type := "audio", codec_name := "aac", channels := some 2,
     tags := some [("language", "en")] },
   { codec_type := "video", codec_name := "h264", channels := none, tags := none },
   { codec_type := "audio", codec_name := "ac3", channels := some 6,
     tags := some [("language", "fr")] },
   { codec_type := "audio", codec_name := "aac", channels := some 2,
     tags := some [("language", "en")] }]

/-- Witness for `c1_reorder_verdict` on the spec's worked example. -/
theorem c1_reorder_verdict_witness :
    WellTyped exampleStreams ∧
    ((streams_to_be_reordered "en" exampleStreams = true ↔
      ((bucketAudioIdx "en" exampleStreams 0).1 ≠ [] ∧
       (bucketAudioIdx "en" exampleStreams 0).2 ≠ [] ∧
       reorderSel "en" exampleStreams
         ≠ List.range (reorderSel "en" exampleStreams).length)) ∧
     (reorderSel "en" exampleStreams
         = List.range (reorderSel "en" exampleStreams).length →
       streams_to_be_reordered "en" exampleStreams = false)) :=
  ⟨by unfold WellTyped; decide,
   c1_reorder_verdict "en" exampleStreams (by unfold WellTyped; decide)⟩

/-- Witness for `c4_matched_bucket` on the spec's worked example. -/
theorem c4_matched_bucket_witness :
    WellTyped exampleStreams ∧
    ((∀ s : FFStream, specC4Match "en" s
        = test_tags_for_search_string "en" s.tags) ∧
     (runReorderMapping "en" exampleStreams).search_string_stream_mapping
       = matchedFrags true (bucketAudioIdx "en" exampleStreams 0).1 ∧
     (runReorderMapping "en" exampleStreams).unmatched_stream_mapping
       = plainFrags (bucketAudioIdx "en" exampleStreams 0).2) :=
  ⟨by unfold WellTyped; decide,
   c4_matched_bucket "en" exampleStreams (by unfold WellTyped; decide)⟩
